import Mathlib

/-
  Verification development for the BountyPing ingestion pipeline.

  Shallow embedding of:
    - src/db/models.py        (Program, ScrapeLog dataclasses)
    - src/db/database.py      (BountyDatabase.upsert_program, log_scrape)
    - src/scrapers/base.py    (BaseScraper.run — the ingestion engine)
    - src/scrapers/projectdiscovery.py (ProjectDiscoveryScraper)
    - src/scrapers/hackerone.py        (HackerOneScraper._parse_program)
    - src/scheduler.py        (BountyPingScheduler.run_scraper trigger logic)

  Timestamps are modelled as `Nat` (a run passes explicit clock values where
  the Python code calls `datetime.utcnow()`); the SQLite `programs` table is
  modelled as a list of rows keyed by `id`; `json.dumps` on string lists is
  modelled by an explicit deterministic encoder.
-/

namespace BountyPing

/-! ## String helpers (models of the Python string operations used) -/

/-- Model of Python `str.lower()` at the fidelity of the ASCII case mapping
(`Char.toLower` lowers exactly the ASCII range). Used only where ASCII
fidelity is observationally sufficient: identity keys over ASCII platform
names, and the ASCII keyword substring tests on domains and bounty text —
the only Unicode lowerings that produce ASCII letters yield `k` (U+212A)
and `i` (U+0130), which cannot create or destroy those keywords. The slug
pipeline, where Unicode lowering is observable, uses `pyLower` instead. -/
def strLower (s : String) : String :=
  String.mk (s.toList.map Char.toLower)

/-- Does `l` start with `sub`? (list-level, used to model substring search). -/
def startsWithL : List Char → List Char → Bool
  | _, [] => true
  | [], _ :: _ => false
  | c :: cs, d :: ds => c == d && startsWithL cs ds

/-- Does `l` contain `sub` as a contiguous run? -/
def containsL : List Char → List Char → Bool
  | [], sub => sub.isEmpty
  | c :: cs, sub => startsWithL (c :: cs) sub || containsL cs sub

/-- Model of Python `sub in s` substring membership. -/
def strContains (s sub : String) : Bool :=
  containsL s.toList sub.toList

/-- Model of Python `s.startswith(t)`. -/
def strStartsWith (s t : String) : Bool :=
  startsWithL s.toList t.toList

/-- Model of Python `s.strip(c)` for a single strip character. -/
def stripCharL (c : Char) (l : List Char) : List Char :=
  ((l.dropWhile (· == c)).reverse.dropWhile (· == c)).reverse

/-- JSON string escaping for one character (quote and backslash, the cases
that can occur in the payloads handled here). -/
def jsonEscChar (c : Char) : List Char :=
  if c == '"' then ['\\', '"']
  else if c == '\\' then ['\\', '\\']
  else [c]

/-- Model of `json.dumps` on a single string. -/
def jsonQuote (s : String) : String :=
  "\"" ++ String.mk ((s.toList.map jsonEscChar).flatten) ++ "\""

/-- Model of `json.dumps` on a list of strings (Python's default separator is
a comma followed by a space). Deterministic, so equal lists encode equally. -/
def jsonDumps (xs : List String) : String :=
  "[" ++ String.intercalate ", " (xs.map jsonQuote) ++ "]"

/-! ## Record model (src/db/models.py) -/

/-- Identity key of a program, from `Program.__post_init__`
(src/db/models.py:44-50): the Python code hashes the lower-cased
`"platform:slug"` key with truncated md5; the hash is modelled by its
pre-image (md5 treated as injective), so equal keys give equal identities. -/
def programId (platform slug : String) : String :=
  strLower (platform ++ ":" ++ slug)

/-- The `Program` dataclass (src/db/models.py:10-50). `raw_data` is an opaque
source snapshot, never interpreted by the core; it is modelled as an opaque
optional string. -/
structure Program where
  id : String
  platform : String
  name : String
  slug : String
  url : String
  bounty_min : Option Int := none
  bounty_max : Option Int := none
  currency : String := "USD"
  assets : List String := []
  asset_types : List String := []
  managed : Bool := false
  vdp_only : Bool := false
  accepts_submissions : Bool := true
  offers_bounties : Bool := true
  first_seen : Option Nat := none
  last_updated : Option Nat := none
  last_scraped : Option Nat := none
  raw_data : Option String := none
  deriving DecidableEq, Repr

/-- One row of the SQLite `programs` table (src/db/database.py:33-61).
`assets` and `asset_types` hold the JSON-encoded text exactly as stored. -/
structure StoredRec where
  id : String
  platform : String
  name : String
  slug : String
  url : String
  bounty_min : Option Int
  bounty_max : Option Int
  currency : String
  assets : String
  asset_types : String
  managed : Bool
  vdp_only : Bool
  accepts_submissions : Bool
  offers_bounties : Bool
  first_seen : Nat
  last_updated : Nat
  last_scraped : Nat
  raw_data : Option String
  deriving DecidableEq, Repr

/-- The `programs` table, keyed by `id` (TEXT PRIMARY KEY). -/
abbrev Store := List StoredRec

/-- Model of `SELECT * FROM programs WHERE id = ?` (src/db/database.py:97). -/
def dbLookup : Store → String → Option StoredRec
  | [], _ => none
  | r :: rs, k => if r.id == k then some r else dbLookup rs k

/-- Model of `UPDATE programs ... WHERE id = ?`: replace the row whose `id` matches. -/
def dbReplace : Store → StoredRec → Store
  | [], _ => []
  | r :: rs, nr => if r.id == nr.id then nr :: rs else r :: dbReplace rs nr

/-! ## upsert_program (src/db/database.py:86-187) -/

/-- Translation of `BountyDatabase.upsert_program` (src/db/database.py:86-187).
Returns `(store, is_new, is_updated)`. `now` models the `datetime.utcnow()`
timestamp taken during the call. On insert the three timestamps are set to
`now`; on update the material subset `bounty_min, bounty_max, assets, url`
is compared against the stored row (the `old_data != new_data` dict check),
`last_updated` is refreshed only on a material change, `last_scraped`
unconditionally, and `platform`, `slug`, `first_seen` are not in the UPDATE
column list. -/
def upsert (st : Store) (now : Nat) (p : Program) : Store × Bool × Bool :=
  match dbLookup st p.id with
  | none =>
    let r : StoredRec :=
      { id := p.id, platform := p.platform, name := p.name, slug := p.slug,
        url := p.url, bounty_min := p.bounty_min, bounty_max := p.bounty_max,
        currency := p.currency, assets := jsonDumps p.assets,
        asset_types := jsonDumps p.asset_types, managed := p.managed,
        vdp_only := p.vdp_only, accepts_submissions := p.accepts_submissions,
        offers_bounties := p.offers_bounties, first_seen := now,
        last_updated := now, last_scraped := now, raw_data := p.raw_data }
    (st ++ [r], true, false)
  | some ex =>
    let isUp : Bool :=
      !(ex.bounty_min == p.bounty_min && ex.bounty_max == p.bounty_max &&
        ex.assets == jsonDumps p.assets && ex.url == p.url)
    let nr : StoredRec :=
      { id := p.id, platform := ex.platform, name := p.name, slug := ex.slug,
        url := p.url, bounty_min := p.bounty_min, bounty_max := p.bounty_max,
        currency := p.currency, assets := jsonDumps p.assets,
        asset_types := jsonDumps p.asset_types, managed := p.managed,
        vdp_only := p.vdp_only, accepts_submissions := p.accepts_submissions,
        offers_bounties := p.offers_bounties, first_seen := ex.first_seen,
        last_updated := if isUp then now else ex.last_updated,
        last_scraped := now, raw_data := p.raw_data }
    (dbReplace st nr, false, isUp)

/-! ## Store lemmas -/

theorem dbLookup_id {st : Store} {k : String} {r : StoredRec}
    (h : dbLookup st k = some r) : r.id = k := by
  induction st with
  | nil => simp [dbLookup] at h
  | cons a rs ih =>
    simp only [dbLookup] at h
    by_cases ha : a.id == k
    · simp [ha] at h; subst h; simpa using ha
    · simp [ha] at h; exact ih h

theorem dbLookup_append_none {st : Store} {k : String} {r : StoredRec}
    (h : dbLookup st k = none) (hr : r.id = k) :
    dbLookup (st ++ [r]) k = some r := by
  induction st with
  | nil => simp [dbLookup, hr]
  | cons a rs ih =>
    simp only [dbLookup] at h ⊢
    by_cases ha : a.id == k
    · simp [ha] at h
    · simp [ha] at h ⊢; exact ih h

theorem dbLookup_append_ne {st : Store} {k : String} {r : StoredRec}
    (hr : r.id ≠ k) : dbLookup (st ++ [r]) k = dbLookup st k := by
  induction st with
  | nil => simp [dbLookup, hr]
  | cons a rs ih =>
    simp only [dbLookup, List.cons_append]
    by_cases ha : a.id == k
    · simp [dbLookup, ha]
    · simp [dbLookup, ha]; exact ih

theorem dbReplace_lookup_self {st : Store} {nr ex : StoredRec}
    (h : dbLookup st nr.id = some ex) :
    dbLookup (dbReplace st nr) nr.id = some nr := by
  induction st with
  | nil => simp [dbLookup] at h
  | cons a rs ih =>
    simp only [dbLookup, dbReplace] at h ⊢
    by_cases ha : a.id == nr.id
    · simp [ha, dbLookup]
    · simp [ha] at h ⊢; simp [dbLookup, ha]; exact ih h

theorem dbReplace_lookup_ne {st : Store} {nr : StoredRec} {k : String}
    (h : k ≠ nr.id) : dbLookup (dbReplace st nr) k = dbLookup st k := by
  induction st with
  | nil => simp [dbReplace]
  | cons a rs ih =>
    simp only [dbReplace, dbLookup]
    by_cases ha : a.id == nr.id
    · have hnk : ¬(nr.id == k) := by
        simp only [beq_iff_eq]
        exact fun hc => h hc.symm
      have hak : ¬(a.id == k) := by
        have hae : a.id = nr.id := by simpa using ha
        simp only [beq_iff_eq, hae]
        exact fun hc => h hc.symm
      simp [ha, dbLookup, hnk, hak]
    · by_cases hak : a.id == k
      · simp [ha, dbLookup, hak]
      · simp [ha, dbLookup, hak]; exact ih

theorem dbReplace_length {st : Store} {nr : StoredRec} :
    (dbReplace st nr).length = st.length := by
  induction st with
  | nil => simp [dbReplace]
  | cons a rs ih =>
    simp only [dbReplace]
    by_cases ha : a.id == nr.id
    · simp [ha]
    · simp [ha, ih]

/-! ## Sample data for concrete witnesses -/

/-- A concrete incoming program (scenario A of the spec). -/
def progA : Program :=
  { id := programId "x" "a", platform := "x", name := "A", slug := "a",
    url := "https://x/a", bounty_max := some 500 }

/-- The same identity with only the name changed (scenario B). -/
def progA2 : Program :=
  { progA with name := "A2" }

/-- The same identity with `bounty_max` changed (scenario C). -/
def progB : Program :=
  { progA with name := "A2", bounty_max := some 900 }

/-- The stored row produced by inserting `progA` at time 5. -/
def recA : StoredRec :=
  { id := programId "x" "a", platform := "x", name := "A", slug := "a",
    url := "https://x/a", bounty_min := none, bounty_max := some 500,
    currency := "USD", assets := jsonDumps [], asset_types := jsonDumps [],
    managed := false, vdp_only := false, accepts_submissions := true,
    offers_bounties := true, first_seen := 5, last_updated := 5,
    last_scraped := 5, raw_data := none }

/-! ## Claim theorems about upsert_program -/

/-- Claim C1: on an upsert of an existing identity, `is_updated` is true iff
at least one of the material fields `bounty_min`, `bounty_max`, `assets`,
`url` differs from the stored row; in particular a `bounty_max` change forces
`is_updated = true`, material equality (e.g. a name-only change) forces
`is_updated = false`, and `name`, `asset_types` and the boolean flags are
overwritten in the store without affecting `is_updated`. -/
theorem claim_C1_material_change_classification
    (st : Store) (now : Nat) (p : Program) (ex : StoredRec)
    (h : dbLookup st p.id = some ex) :
    (((upsert st now p).2.2 = true) ↔
      ¬(ex.bounty_min = p.bounty_min ∧ ex.bounty_max = p.bounty_max ∧
        ex.assets = jsonDumps p.assets ∧ ex.url = p.url)) ∧
    (ex.bounty_max ≠ p.bounty_max → (upsert st now p).2.2 = true) ∧
    (ex.bounty_min = p.bounty_min → ex.bounty_max = p.bounty_max →
      ex.assets = jsonDumps p.assets → ex.url = p.url →
      (upsert st now p).2.2 = false) ∧
    ∃ nr, dbLookup (upsert st now p).1 p.id = some nr ∧
      nr.name = p.name ∧ nr.asset_types = jsonDumps p.asset_types ∧
      nr.managed = p.managed ∧ nr.vdp_only = p.vdp_only ∧
      nr.accepts_submissions = p.accepts_submissions ∧
      nr.offers_bounties = p.offers_bounties := by
  have hiff : ((upsert st now p).2.2 = true) ↔
      ¬(ex.bounty_min = p.bounty_min ∧ ex.bounty_max = p.bounty_max ∧
        ex.assets = jsonDumps p.assets ∧ ex.url = p.url) := by
    simp [upsert, h, not_and_or]
    tauto
  refine ⟨hiff, ?_, ?_, ?_⟩
  · intro hne
    exact hiff.mpr (fun hc => hne hc.2.1)
  · intro h1 h2 h3 h4
    have hnot : ¬((upsert st now p).2.2 = true) :=
      fun hb => (hiff.mp hb) ⟨h1, h2, h3, h4⟩
    simpa using hnot
  · simp only [upsert, h]
    exact ⟨_, dbReplace_lookup_self h, rfl, rfl, rfl, rfl, rfl, rfl⟩

/-- Witness for C1 at a concrete input: `progB` changes `bounty_max`
against the stored row `recA`, so the upsert reports `is_updated = true`. -/
theorem claim_C1_material_change_classification_witness :
    dbLookup [recA] progB.id = some recA ∧
    (upsert [recA] 7 progB).2.2 = true :=
  ⟨by decide,
   (claim_C1_material_change_classification [recA] 7 progB recA
      (by decide)).2.1 (by decide)⟩

/-- Claim C5: on an upsert of an existing identity, `first_seen` is kept from
the stored row, `last_scraped` is set to the call time unconditionally, and
`last_updated` is set to the call time exactly when a material field changed
and is otherwise kept; when the clock is non-decreasing, `last_scraped` never
decreases. -/
theorem claim_C5_timestamp_frame
    (st : Store) (now : Nat) (p : Program) (ex : StoredRec)
    (h : dbLookup st p.id = some ex) :
    ∃ nr, dbLookup (upsert st now p).1 p.id = some nr ∧
      nr.first_seen = ex.first_seen ∧
      nr.last_scraped = now ∧
      ((upsert st now p).2.2 = true → nr.last_updated = now) ∧
      ((upsert st now p).2.2 = false → nr.last_updated = ex.last_updated) ∧
      (ex.last_scraped ≤ now → ex.last_scraped ≤ nr.last_scraped) := by
  simp only [upsert, h]
  refine ⟨_, dbReplace_lookup_self h, rfl, rfl, ?_, ?_, ?_⟩
  · intro hup
    simp only [hup, if_true]
  · intro hup
    simp only [hup]
    simp
  · intro hle
    exact hle

/-- Witness for C5 at a concrete input: re-ingesting `progA` unchanged at
time 9 over the row `recA` keeps `first_seen` and `last_updated` and
advances `last_scraped`. -/
theorem claim_C5_timestamp_frame_witness :
    dbLookup [recA] progA.id = some recA ∧
    (∃ nr, dbLookup (upsert [recA] 9 progA).1 progA.id = some nr ∧
      nr.first_seen = recA.first_seen ∧
      nr.last_scraped = 9 ∧
      ((upsert [recA] 9 progA).2.2 = true → nr.last_updated = 9) ∧
      ((upsert [recA] 9 progA).2.2 = false →
        nr.last_updated = recA.last_updated) ∧
      (recA.last_scraped ≤ 9 → recA.last_scraped ≤ nr.last_scraped)) :=
  ⟨by decide, claim_C5_timestamp_frame [recA] 9 progA recA (by decide)⟩

/-- Claim C6: an upsert of a never-before-seen identity returns
`is_new = true` (and `is_updated = false`) and stores the row with
`first_seen = last_updated = last_scraped = now`. -/
theorem claim_C6_first_insert
    (st : Store) (now : Nat) (p : Program)
    (h : dbLookup st p.id = none) :
    (upsert st now p).2.1 = true ∧ (upsert st now p).2.2 = false ∧
    ∃ nr, dbLookup (upsert st now p).1 p.id = some nr ∧
      nr.first_seen = now ∧ nr.last_updated = now ∧ nr.last_scraped = now := by
  refine ⟨by simp [upsert, h], by simp [upsert, h], ?_⟩
  simp only [upsert, h]
  exact ⟨_, dbLookup_append_none h rfl, rfl, rfl, rfl⟩

/-- Witness for C6 at a concrete input: inserting `progA` into the empty
catalog at time 5 reports new and sets the three timestamps to 5. -/
theorem claim_C6_first_insert_witness :
    (upsert [] 5 progA).2.1 = true ∧ (upsert [] 5 progA).2.2 = false ∧
    ∃ nr, dbLookup (upsert [] 5 progA).1 progA.id = some nr ∧
      nr.first_seen = 5 ∧ nr.last_updated = 5 ∧ nr.last_scraped = 5 :=
  claim_C6_first_insert [] 5 progA (by decide)

/-! ## Ingestion engine (src/scrapers/base.py:42-87) -/

/-- The `ScrapeLog` dataclass (src/db/models.py:77-89), minus the surrogate
row id the database assigns on append. -/
structure ScrapeLog where
  platform : String
  started_at : Option Nat
  completed_at : Option Nat
  programs_found : Nat
  programs_new : Nat
  programs_updated : Nat
  success : Bool
  error_message : Option String
  deriving DecidableEq, Repr

/-- Shape of the collaborator `BountyDatabase.upsert_program` as the engine
sees it: it may raise (modelled as `Except.error`), e.g. on a storage
constraint violation. -/
def UpsertFn : Type :=
  Store → Nat → Program → Except String (Store × Bool × Bool)

/-- The real upsert never fails in the pure model. -/
def upsertE : UpsertFn :=
  fun st now p => Except.ok (upsert st now p)

/-- The per-record loop of `BaseScraper.run` (src/scrapers/base.py:60-67):
counts `is_new` records and, through the `elif`, records that are updated but
not new; a raised upsert error escapes the loop immediately (it is caught
only by the whole-run handler), keeping the store mutations made so far. -/
def processE (up : UpsertFn) (now : Nat) :
    Store → List Program → Store × Except String (Nat × Nat)
  | st, [] => (st, Except.ok (0, 0))
  | st, p :: ps =>
    match up st now p with
    | Except.error e => (st, Except.error e)
    | Except.ok (st1, isNew, isUp) =>
      match processE up now st1 ps with
      | (st2, Except.error e) => (st2, Except.error e)
      | (st2, Except.ok (n, u)) =>
        (st2, Except.ok
          (if isNew then (n + 1, u) else if isUp then (n, u + 1) else (n, u)))

/-- The same loop specialised to the never-failing upsert. -/
def processOk (now : Nat) : Store → List Program → Store × Nat × Nat
  | st, [] => (st, 0, 0)
  | st, p :: ps =>
    let r := upsert st now p
    let rest := processOk now r.1 ps
    (rest.1,
     (if r.2.1 then rest.2.1 + 1 else rest.2.1),
     (if r.2.1 then rest.2.2 else if r.2.2 then rest.2.2 + 1 else rest.2.2))

theorem processE_upsertE (now : Nat) (st : Store) (L : List Program) :
    processE upsertE now st L =
      ((processOk now st L).1, Except.ok (processOk now st L).2) := by
  induction L generalizing st with
  | nil => simp [processE, processOk]
  | cons p ps ih =>
    simp only [processE, processOk, upsertE, ih]
    by_cases hn : (upsert st now p).2.1 <;>
      by_cases hu : (upsert st now p).2.2 <;>
        simp [hn, hu]

/-- Result of one engine run: the catalog, the run log table after the
`log_scrape` append, and the returned `ScrapeLog`. -/
structure EngineResult where
  store : Store
  logs : List ScrapeLog
  log : ScrapeLog
  deriving DecidableEq, Repr

/-- Translation of `BaseScraper.run` (src/scrapers/base.py:42-87), parameterised by the
upsert collaborator. `fetched` is the outcome of `scrape_programs()`
(`Except.error` models a raised exception). `tStart`, `tUp`, `tEnd` model the
`datetime.utcnow()` readings at run start, during upserts, and at completion.
The `except` block marks the log failed with the stringified error and sets
`completed_at`; `log_scrape` appends the log on every path; the function is
total, so no exception escapes to the caller. On a fetch error
`programs_found` was never assigned (stays 0); on a mid-loop upsert error it
was already set to the fetched length while the counters stay 0. -/
def engineRunWith (up : UpsertFn) (platform : String)
    (fetched : Except String (List Program)) (st : Store)
    (logs : List ScrapeLog) (tStart tUp tEnd : Nat) : EngineResult :=
  match fetched with
  | Except.error e =>
    let log : ScrapeLog :=
      { platform := platform, started_at := some tStart,
        completed_at := some tEnd, programs_found := 0, programs_new := 0,
        programs_updated := 0, success := false, error_message := some e }
    ⟨st, logs ++ [log], log⟩
  | Except.ok programs =>
    match processE up tUp st programs with
    | (st1, Except.error e) =>
      let log : ScrapeLog :=
        { platform := platform, started_at := some tStart,
          completed_at := some tEnd, programs_found := programs.length,
          programs_new := 0, programs_updated := 0, success := false,
          error_message := some e }
      ⟨st1, logs ++ [log], log⟩
    | (st1, Except.ok (n, u)) =>
      let log : ScrapeLog :=
        { platform := platform, started_at := some tStart,
          completed_at := some tEnd, programs_found := programs.length,
          programs_new := n, programs_updated := u, success := true,
          error_message := none }
      ⟨st1, logs ++ [log], log⟩

/-- The engine `BaseScraper.run` with the real database upsert. -/
def engineRun (platform : String) (fetched : Except String (List Program))
    (st : Store) (logs : List ScrapeLog) (tStart tUp tEnd : Nat) :
    EngineResult :=
  engineRunWith upsertE platform fetched st logs tStart tUp tEnd

/-- Claim C3: when the fetch raises, the engine returns a failed run with the
error message and `completed_at` set, upserts nothing (catalog unchanged),
and on every path — failure or success — appends the run record to the run
log; the engine is a total function of the fetch outcome, so no exception
propagates to the scheduler. -/
theorem claim_C3_fetch_failure_boundary
    (platform e : String) (st : Store) (logs : List ScrapeLog)
    (tStart tUp tEnd : Nat) :
    (engineRun platform (Except.error e) st logs tStart tUp tEnd).store = st ∧
    (engineRun platform (Except.error e) st logs tStart tUp tEnd).log.success
      = false ∧
    (engineRun platform (Except.error e) st logs tStart tUp
        tEnd).log.error_message = some e ∧
    (engineRun platform (Except.error e) st logs tStart tUp
        tEnd).log.completed_at = some tEnd ∧
    ∀ fetched, (engineRun platform fetched st logs tStart tUp tEnd).logs =
      logs ++ [(engineRun platform fetched st logs tStart tUp tEnd).log] := by
  refine ⟨rfl, rfl, rfl, rfl, ?_⟩
  intro fetched
  cases fetched with
  | error e' => rfl
  | ok programs =>
    simp only [engineRun, engineRunWith, processE_upsertE]

/-! ## Claim C7: per-record upsert failure -/

/-- An upsert collaborator that raises a storage error for one identity
(models a sqlite constraint violation on that record). -/
def upsertFailOn (bad : String) : UpsertFn :=
  fun st now p =>
    if p.id = bad then Except.error "UNIQUE constraint failed"
    else Except.ok (upsert st now p)

/-- A second concrete program with a distinct identity. -/
def progC : Program :=
  { id := programId "y" "c", platform := "y", name := "C", slug := "c",
    url := "https://y/c" }

/-- Counterexample to claim C7 as stated: with an upsert that fails on the
first record of `[progA, progC]`, the run is marked failed (success is not
kept true) and the remaining record `progC` is never processed — it is
absent from the catalog afterwards. -/
theorem claim_C7_counterexample :
    (engineRunWith (upsertFailOn progA.id) "x" (Except.ok [progA, progC])
      [] [] 0 0 0).log.success = false ∧
    dbLookup (engineRunWith (upsertFailOn progA.id) "x"
      (Except.ok [progA, progC]) [] [] 0 0 0).store progC.id = none := by
  decide

/-- Claim C7 as amended: a storage-layer failure during the upsert of a
single record aborts the run at that record — the remaining records are not
processed, the run is marked failed with the error message and
`completed_at` set (found keeps the fetched length, counters stay 0), the
store keeps only the mutations made before the failure, and the failed run
record is still appended to the run log. -/
theorem claim_C7_upsert_failure_aborts_run
    (up : UpsertFn) (platform e : String) (L : List Program) (st st1 : Store)
    (logs : List ScrapeLog) (tStart tUp tEnd : Nat)
    (h : processE up tUp st L = (st1, Except.error e)) :
    engineRunWith up platform (Except.ok L) st logs tStart tUp tEnd =
      ⟨st1,
       logs ++ [{ platform := platform, started_at := some tStart,
                  completed_at := some tEnd, programs_found := L.length,
                  programs_new := 0, programs_updated := 0, success := false,
                  error_message := some e }],
       { platform := platform, started_at := some tStart,
         completed_at := some tEnd, programs_found := L.length,
         programs_new := 0, programs_updated := 0, success := false,
         error_message := some e }⟩ := by
  simp [engineRunWith, h]

/-- Witness for amended C7 at the concrete failing scenario. -/
theorem claim_C7_upsert_failure_aborts_run_witness :
    processE (upsertFailOn progA.id) 0 [] [progA, progC] =
      ([], Except.error "UNIQUE constraint failed") ∧
    engineRunWith (upsertFailOn progA.id) "x" (Except.ok [progA, progC])
        [] [] 0 0 0 =
      ⟨[],
       [{ platform := "x", started_at := some 0, completed_at := some 0,
          programs_found := 2, programs_new := 0, programs_updated := 0,
          success := false,
          error_message := some "UNIQUE constraint failed" }],
       { platform := "x", started_at := some 0, completed_at := some 0,
         programs_found := 2, programs_new := 0, programs_updated := 0,
         success := false,
         error_message := some "UNIQUE constraint failed" }⟩ :=
  ⟨by rfl,
   claim_C7_upsert_failure_aborts_run (upsertFailOn progA.id) "x"
     "UNIQUE constraint failed" [progA, progC] [] [] [] 0 0 0 (by rfl)⟩

/-! ## Claim C2: idempotent re-ingestion -/

/-- The material view of an incoming program, exactly the `new_data` dict of
`upsert_program` (src/db/database.py:139-144). -/
def matView (p : Program) : Option Int × Option Int × String × String :=
  (p.bounty_min, p.bounty_max, jsonDumps p.assets, p.url)

/-- The material view of a stored row, exactly the `old_data` dict
(src/db/database.py:132-137). -/
def matOf (r : StoredRec) : Option Int × Option Int × String × String :=
  (r.bounty_min, r.bounty_max, r.assets, r.url)

/-- All programs of a fetched list that share an identity agree on the
material fields. -/
def MatAgree (L : List Program) : Prop :=
  ∀ p ∈ L, ∀ q ∈ L, p.id = q.id → matView p = matView q

instance (L : List Program) : Decidable (MatAgree L) := by
  unfold MatAgree
  infer_instance

theorem upsert_lookup_self (st : Store) (now : Nat) (p : Program) :
    ∃ r, dbLookup (upsert st now p).1 p.id = some r ∧ matOf r = matView p := by
  cases h : dbLookup st p.id with
  | none =>
    simp only [upsert, h]
    exact ⟨_, dbLookup_append_none h rfl, rfl⟩
  | some ex =>
    simp only [upsert, h]
    exact ⟨_, dbReplace_lookup_self h, rfl⟩

theorem upsert_lookup_ne (st : Store) (now : Nat) (p : Program) {k : String}
    (hk : k ≠ p.id) : dbLookup (upsert st now p).1 k = dbLookup st k := by
  cases h : dbLookup st p.id with
  | none =>
    simp only [upsert, h]
    exact dbLookup_append_ne (fun hc => hk hc.symm)
  | some ex =>
    simp only [upsert, h]
    exact dbReplace_lookup_ne hk

theorem upsert_unchanged (st : Store) (now : Nat) (p : Program)
    {r : StoredRec} (h : dbLookup st p.id = some r)
    (hm : matOf r = matView p) :
    (upsert st now p).2.1 = false ∧ (upsert st now p).2.2 = false := by
  have h1 : r.bounty_min = p.bounty_min := congrArg Prod.fst hm
  have h2 : r.bounty_max = p.bounty_max := congrArg (fun x => x.2.1) hm
  have h3 : r.assets = jsonDumps p.assets := congrArg (fun x => x.2.2.1) hm
  have h4 : r.url = p.url := congrArg (fun x => x.2.2.2) hm
  simp [upsert, h, h1, h2, h3, h4]

theorem processOk_lookup_ne (now : Nat) (st : Store) (L : List Program)
    {k : String} (h : ∀ q ∈ L, q.id ≠ k) :
    dbLookup (processOk now st L).1 k = dbLookup st k := by
  induction L generalizing st with
  | nil => rfl
  | cons a ps ih =>
    simp only [processOk]
    rw [ih _ (fun q hq => h q (List.mem_cons_of_mem a hq))]
    exact upsert_lookup_ne st now a (fun hc => h a (List.mem_cons_self a ps) hc.symm)

theorem processOk_establishes (now : Nat) (L : List Program)
    (H : MatAgree L) (st : Store) :
    ∀ p ∈ L, ∃ r, dbLookup (processOk now st L).1 p.id = some r ∧
      matOf r = matView p := by
  induction L generalizing st with
  | nil => intro p hp; cases hp
  | cons a ps ih =>
    have Hps : MatAgree ps := fun p hp q hq =>
      H p (List.mem_cons_of_mem a hp) q (List.mem_cons_of_mem a hq)
    intro p hp
    rcases List.mem_cons.mp hp with hpa | hpm
    · subst hpa
      by_cases hq : ∃ q ∈ ps, q.id = p.id
      · obtain ⟨q, hqm, hqid⟩ := hq
        obtain ⟨r, hr, hmr⟩ :=
          ih Hps (upsert st now p).1 q hqm
        refine ⟨r, ?_, ?_⟩
        · simpa only [processOk, hqid] using hr
        · rw [hmr]
          exact H q (List.mem_cons_of_mem p hqm) p (List.mem_cons_self p ps)
            hqid
      · push_neg at hq
        obtain ⟨r, hr, hmr⟩ := upsert_lookup_self st now p
        refine ⟨r, ?_, hmr⟩
        simp only [processOk]
        rw [processOk_lookup_ne now _ ps hq]
        exact hr
    · exact ih Hps (upsert st now a).1 p hpm

theorem processOk_no_changes (now : Nat) (L : List Program)
    (H : MatAgree L) (st : Store)
    (Hinv : ∀ p ∈ L, ∃ r, dbLookup st p.id = some r ∧ matOf r = matView p) :
    (processOk now st L).2 = (0, 0) := by
  induction L generalizing st with
  | nil => rfl
  | cons a ps ih =>
    have Hps : MatAgree ps := fun p hp q hq =>
      H p (List.mem_cons_of_mem a hp) q (List.mem_cons_of_mem a hq)
    obtain ⟨r, hr, hmr⟩ := Hinv a (List.mem_cons_self a ps)
    obtain ⟨hn, hu⟩ := upsert_unchanged st now a hr hmr
    have Hinv1 : ∀ p ∈ ps, ∃ r', dbLookup (upsert st now a).1 p.id = some r' ∧
        matOf r' = matView p := by
      intro p hp
      by_cases hid : p.id = a.id
      · obtain ⟨r', hr', hmr'⟩ := upsert_lookup_self st now a
        refine ⟨r', by rw [hid]; exact hr', ?_⟩
        rw [hmr']
        exact H a (List.mem_cons_self a ps) p (List.mem_cons_of_mem a hp)
          hid.symm
      · rw [upsert_lookup_ne st now a hid]
        exact Hinv p (List.mem_cons_of_mem a hp)
    have := ih Hps (upsert st now a).1 Hinv1
    simp only [processOk, hn, hu, this]
    simp

/-- Programs with the same identity in one fetch, disagreeing on
`bounty_max`. -/
def dupX : Program :=
  { id := programId "x" "a", platform := "x", name := "D1", slug := "a",
    url := "https://x/a", bounty_max := some 100 }

/-- Same identity as `dupX`, different material field. -/
def dupY : Program :=
  { dupX with name := "D2", bounty_max := some 200 }

/-- Counterexample to claim C2 as stated: the fetched set `[dupX, dupY]`
holds two programs with the same identity but different `bounty_max`;
ingesting it twice in a row still reports 2 updates (not 0) on the second
run. -/
theorem claim_C2_counterexample :
    (engineRun "x" (Except.ok [dupX, dupY])
      (engineRun "x" (Except.ok [dupX, dupY]) [] [] 0 0 0).store
      [] 1 1 1).log.programs_updated = 2 ∧
    (engineRun "x" (Except.ok [dupX, dupY])
      (engineRun "x" (Except.ok [dupX, dupY]) [] [] 0 0 0).store
      [] 1 1 1).log.programs_new = 0 := by
  decide

/-- Claim C2 as amended: provided no two programs of the fetched set share
an identity while disagreeing on a material field, running the ingestion
twice in a row with the same set yields `new = 0` and `updated = 0` on the
second run, from any starting catalog. -/
theorem claim_C2_idempotent_reingestion
    (platform platform2 : String) (L : List Program) (st : Store)
    (logs logs2 : List ScrapeLog) (a b c d e f : Nat)
    (H : MatAgree L) :
    (engineRun platform2 (Except.ok L)
      (engineRun platform (Except.ok L) st logs a b c).store
      logs2 d e f).log.programs_new = 0 ∧
    (engineRun platform2 (Except.ok L)
      (engineRun platform (Except.ok L) st logs a b c).store
      logs2 d e f).log.programs_updated = 0 := by
  have hstore : (engineRun platform (Except.ok L) st logs a b c).store =
      (processOk b st L).1 := by
    simp only [engineRun, engineRunWith, processE_upsertE]
  have hinv := processOk_establishes b L H st
  have hcounts := processOk_no_changes e L H (processOk b st L).1 hinv
  constructor <;>
    · simp only [engineRun, engineRunWith, processE_upsertE, hstore]
      simp [hcounts]

/-- Witness for amended C2: two distinct-identity records ingested twice
from the empty catalog give a second run with no news and no updates. -/
theorem claim_C2_idempotent_reingestion_witness :
    MatAgree [progA, progC] ∧
    ((engineRun "x" (Except.ok [progA, progC])
        (engineRun "x" (Except.ok [progA, progC]) [] [] 0 0 0).store
        [] 1 1 1).log.programs_new = 0 ∧
     (engineRun "x" (Except.ok [progA, progC])
        (engineRun "x" (Except.ok [progA, progC]) [] [] 0 0 0).store
        [] 1 1 1).log.programs_updated = 0) :=
  ⟨by decide,
   claim_C2_idempotent_reingestion "x" "x" [progA, progC] [] [] [] 0 0 0 1 1 1
     (by decide)⟩

/-! ## ProjectDiscovery adapter (src/scrapers/projectdiscovery.py) -/

/-- One character of the regex class `[a-z0-9]`, by code point. -/
def isSlugChar (c : Char) : Bool :=
  (97 ≤ c.toNat && c.toNat ≤ 122) || (48 ≤ c.toNat && c.toNat ≤ 57)

/-- Model of `re.sub` with pattern `[^a-z0-9]+` and replacement `-`: each maximal run of characters outside
`[a-z0-9]` becomes one hyphen; `inRun` records whether the previous
character belonged to such a run. -/
def subNonAlnum : List Char → Bool → List Char
  | [], _ => []
  | c :: cs, inRun =>
    if isSlugChar c then c :: subNonAlnum cs false
    else if inRun then subNonAlnum cs true
    else '-' :: subNonAlnum cs true

/-- Model of Python `str.lower()` on one character, at the fidelity the slug
pipeline can observe. ASCII `A`-`Z` lower to `a`-`z`; the only two code
points whose Unicode lowercase contains ASCII letters or digits are
U+0130 (LATIN CAPITAL LETTER I WITH DOT ABOVE, whose full lowercase is `i`
followed by the combining dot U+0307) and U+212A (KELVIN SIGN, lowering to
`k`). Every other character lowers to a character that is again outside
`[a-z0-9]`; the model keeps such characters unchanged, which the following
replace-runs-and-strip step cannot distinguish from the real lowercase. -/
def pyLowerChar (c : Char) : List Char :=
  if c.toNat == 0x130 then ['i', '\u0307']
  else if c.toNat == 0x212A then ['k']
  else [Char.toLower c]

/-- Model of Python `str.lower()` on a whole string, as a character list. -/
def pyLower (s : String) : List Char :=
  (s.toList.map pyLowerChar).flatten

/-- Composition `s.lower()` then the hyphen `re.sub` then `.strip('-')`
(src/scrapers/projectdiscovery.py:133,148), with `lower()` modelled by
`pyLower` so the Unicode-to-ASCII case mappings are kept. -/
def slugify (s : String) : String :=
  String.mk (stripCharL '-' (subNonAlnum (pyLower s) false))

/-- The characters after the first `://`, if any. -/
def afterScheme : List Char → Option (List Char)
  | ':' :: '/' :: '/' :: rest => some rest
  | _ :: rest => afterScheme rest
  | [] => none

/-- Model of `urlparse(url).netloc` for the common `scheme://host/path`
shape: the text between the first `://` and the next `/`, `?` or `#`;
empty when the URL carries no `://` (as `urlparse` gives for scheme-less
text). -/
def urlNetloc (url : String) : String :=
  match afterScheme url.toList with
  | some rest =>
    String.mk (rest.takeWhile (fun c => !(c == '/' || c == '?' || c == '#')))
  | none => ""

/-- Model of `urlparse(url).path` for the same URL shapes. -/
def urlPath (url : String) : String :=
  match afterScheme url.toList with
  | some rest =>
    String.mk (((rest.dropWhile
      (fun c => !(c == '/' || c == '?' || c == '#'))).takeWhile
        (fun c => !(c == '?' || c == '#'))))
  | none => String.mk (url.toList.takeWhile (fun c => !(c == '?' || c == '#')))

/-- Translation of `_detect_platform` (src/scrapers/projectdiscovery.py:103-127). -/
def pdDetectPlatform (url : String) : String :=
  if url = "" then "unknown"
  else
    let domain := strLower (urlNetloc url)
    if strContains domain "hackerone.com" then "hackerone"
    else if strContains domain "bugcrowd.com" then "bugcrowd"
    else if strContains domain "intigriti.com" then "intigriti"
    else if strContains domain "yeswehack.com" then "yeswehack"
    else if strContains domain "immunefi.com" then "immunefi"
    else if strContains domain "code4rena.com" then "code4rena"
    else if strContains domain "huntr.dev" || strContains domain "huntr.com"
      then "huntr"
    else if strContains domain "algora.io" then "algora"
    else "other"

/-- Model of Python `s.split('/')` on characters; like `str.split` it always
returns at least one (possibly empty) piece. -/
def splitSlash : List Char → List (List Char)
  | [] => [[]]
  | c :: cs =>
    let r := splitSlash cs
    if c == '/' then [] :: r
    else (c :: r.headD []) :: r.tail

/-- Translation of `_generate_slug` (src/scrapers/projectdiscovery.py:129-149). With an
empty URL the slug comes from the name alone (no `'unknown'` fallback in
that branch). Otherwise the last piece of the stripped URL path is
slugified; `str.split` never yields an empty list, so the Python `else`
branch using the netloc is unreachable, and an empty result falls back to
`"unknown"` via `slug or 'unknown'`. -/
def pdGenerateSlug (url name : String) : String :=
  if url = "" then slugify name
  else
    let path := stripCharL '/' (urlPath url).toList
    let parts := splitSlash path
    let slug := slugify (String.mk (parts.getLastD []))
    if slug = "" then "unknown" else slug

/-- Numeric value of a digit run. -/
def digitsToNat (l : List Char) : Nat :=
  l.foldl (fun n c => n * 10 + (c.toNat - 48)) 0

/-- Greedy `(?:,\d+)*` continuation of the bounty-amount regex: consumes
comma-separated digit groups, returning the digits (commas dropped, since
Python applies `int(a.replace(',', ''))`) and the unconsumed rest. Fueled
recursion; a fuel of the input length is enough because every step consumes
at least one character, so the zero-fuel branch is unreachable. -/
def amountTailF : Nat → List Char → List Char × List Char
  | 0, l => ([], l)
  | fuel + 1, ',' :: c :: cs =>
    if c.isDigit then
      let ds := (c :: cs).takeWhile Char.isDigit
      let rest := (c :: cs).dropWhile Char.isDigit
      let p := amountTailF fuel rest
      (ds ++ p.1, p.2)
    else ([], ',' :: c :: cs)
  | _ + 1, l => ([], l)

/-- Model of `re.findall` with the bounty-amount pattern, mapped through
`int(a.replace(',', ''))` (src/scrapers/projectdiscovery.py:72-74). Fueled
like `amountTailF`. -/
def findAmountsF : Nat → List Char → List Nat
  | 0, _ => []
  | _ + 1, [] => []
  | fuel + 1, '$' :: rest =>
    let ds := rest.takeWhile Char.isDigit
    if ds.isEmpty then findAmountsF fuel rest
    else
      let r1 := rest.dropWhile Char.isDigit
      let p := amountTailF r1.length r1
      digitsToNat (ds ++ p.1) :: findAmountsF fuel p.2
  | fuel + 1, _ :: rest => findAmountsF fuel rest

/-- All `$`-amounts occurring in a bounty string. -/
def findAmounts (s : String) : List Nat :=
  findAmountsF s.length s.toList

/-- Python `min` on a nonempty list (0 on empty, a case the caller guards). -/
def listMin : List Nat → Nat
  | [] => 0
  | x :: xs => xs.foldl Nat.min x

/-- Python `max` on a nonempty list (0 on empty, a case the caller guards). -/
def listMax : List Nat → Nat
  | [] => 0
  | x :: xs => xs.foldl Nat.max x

/-- Translation of `_detect_asset_types` (src/scrapers/projectdiscovery.py:151-170). The
Python code accumulates tags in a `set` and returns `list(types)` in an
unspecified order; the model emits the same tags in the fixed order
api, mobile, web. -/
def pdDetectAssetTypes (domains : List String) : List String :=
  let ds := domains.take 10
  let hasApi := ds.any (fun d =>
    strContains (strLower d) "api." || strContains (strLower d) "/api")
  let hasMobile := ds.any (fun d =>
    strContains (strLower d) "android" || strContains (strLower d) "ios" ||
    strContains (strLower d) "mobile" || strContains (strLower d) "app")
  let hasWeb := ds.any (fun d => strStartsWith d "http" || strContains d ".")
  let types := (if hasApi then ["api"] else []) ++
    (if hasMobile then ["mobile"] else []) ++
    (if hasWeb then ["web"] else [])
  if types = [] then ["web"] else types

/-- One entry of `chaos-bugbounty-list.json` as consulted by
`_parse_program`: the keys read via `item.get`, each optional because `get`
supplies a default. -/
structure PDItem where
  name : Option String := none
  url : Option String := none
  bounty : Option String := none
  domains : List String := []
  deriving DecidableEq, Repr

/-- Translation of `ProjectDiscoveryScraper._parse_program`
(src/scrapers/projectdiscovery.py:53-101). The opaque `raw_data` snapshot is
not tracked (it is never interpreted). -/
def pdParseProgram (item : PDItem) : Program :=
  let url := item.url.getD ""
  let platform := pdDetectPlatform url
  let slug := pdGenerateSlug url (item.name.getD "")
  let bounty := strLower (item.bounty.getD "")
  let saysYes := strContains bounty "yes" || strContains bounty "$"
  let saysNo := strContains bounty "no" || strContains bounty "swag"
  let vdp_only := if saysYes then false else if saysNo then true else false
  let amounts := findAmounts bounty
  let bmm : Option Int × Option Int :=
    if saysYes then
      match amounts with
      | [] => (none, none)
      | [a] => (none, some (a : Int))
      | a :: b :: rest =>
        (some ((listMin (a :: b :: rest) : Nat) : Int),
         some ((listMax (a :: b :: rest) : Nat) : Int))
    else (none, none)
  { id := programId platform slug, platform := platform,
    name := item.name.getD slug, slug := slug, url := url,
    bounty_min := bmm.1, bounty_max := bmm.2, currency := "USD",
    assets := item.domains.take 20,
    asset_types := pdDetectAssetTypes item.domains,
    managed := false, vdp_only := vdp_only, accepts_submissions := true,
    offers_bounties := !vdp_only, raw_data := none }

/-- Translation of `ProjectDiscoveryScraper.scrape_programs`
(src/scrapers/projectdiscovery.py:28-51): the whole fetch-and-parse is
wrapped in `try/except` that returns `[]` on any error, so a transport
failure yields an empty list instead of an exception; on success every item
is parsed (`_parse_program` never returns a falsy value, so the `if
program:` filter keeps everything). -/
def pdScrapePrograms (fetched : Except String (List PDItem)) : List Program :=
  match fetched with
  | Except.error _ => []
  | Except.ok items => items.map pdParseProgram

/-! ## HackerOne adapter (src/scrapers/hackerone.py) -/

/-- A HackerOne GraphQL team node as consulted by `_parse_program`
(src/scrapers/hackerone.py:113-153): only the keys the parser reads, each
optional because `.get` supplies a default. -/
structure H1Node where
  handle : Option String := none
  name : Option String := none
  currency : Option String := none
  submission_state : Option String := none
  offers_bounties : Option Bool := none
  base_bounty : Option Int := none
  deriving DecidableEq, Repr

/-- Translation of `HackerOneScraper._parse_program` (src/scrapers/hackerone.py:113-153).
`node.get('offers_bounties', False)` defaults a missing signal to `False`
and `vdp_only = not offers_bounties`; `if base_bounty and offers_bounties`
uses Python truthiness, so a zero base bounty counts as absent. -/
def h1ParseProgram (node : H1Node) : Program :=
  let handle := node.handle.getD ""
  let name := node.name.getD handle
  let offers_bounties := node.offers_bounties.getD false
  let submission_state := node.submission_state.getD ""
  let vdp_only := !offers_bounties
  let bounty_min : Option Int :=
    match node.base_bounty with
    | some b => if !(b == 0) && offers_bounties then some b else none
    | none => none
  { id := programId "hackerone" handle, platform := "hackerone",
    name := name, slug := handle, url := "https://hackerone.com/" ++ handle,
    bounty_min := bounty_min, bounty_max := none,
    currency := node.currency.getD "USD", assets := [], asset_types := [],
    managed := false, vdp_only := vdp_only,
    accepts_submissions := (submission_state == "open"),
    offers_bounties := offers_bounties, raw_data := none }

/-! ## Scheduler trigger logic (src/scheduler.py) -/

/-- The scheduler state as constructed by `BountyPingScheduler.__init__`
(src/scheduler.py:28-35): a registry of adapters keyed by platform name and
the background-loop flag. There is no field recording in-flight runs. -/
structure SchedulerState where
  scrapers : List String
  running : Bool
  deriving DecidableEq, Repr

/-- Whether `run_scraper(platform)` proceeds to execute a run
(src/scheduler.py:37-44): the only guard is registry membership
(`if platform not in self.scrapers: return`); nothing else is consulted, so
the decision does not depend on any run currently in flight. -/
def runScraperExecutes (s : SchedulerState) (platform : String) : Bool :=
  s.scrapers.contains platform

/-- The execution decisions for a batch of triggers issued against the same
scheduler state (for instance concurrently). -/
def triggerExecutions (s : SchedulerState) (ts : List String) : List Bool :=
  ts.map (runScraperExecutes s)

/-! ## Claim C4: transport failure of the whole fetch -/

/-- Counterexample to claim C4 as stated: a transport error during the
ProjectDiscovery fetch does not surface as a failed run — the adapter
swallows it and returns `[]`, so the engine reports `success = true` (not
`false`) with `found = 0`, the catalog untouched, and the single appended
run-log entry is a successful one, not a failed one. -/
theorem claim_C4_counterexample :
    (engineRun "projectdiscovery"
      (Except.ok (pdScrapePrograms (Except.error "connection timed out")))
      [] [] 0 0 0).log.success = true ∧
    (engineRun "projectdiscovery"
      (Except.ok (pdScrapePrograms (Except.error "connection timed out")))
      [] [] 0 0 0).log.programs_found = 0 ∧
    (engineRun "projectdiscovery"
      (Except.ok (pdScrapePrograms (Except.error "connection timed out")))
      [] [] 0 0 0).store = ([] : Store) ∧
    (engineRun "projectdiscovery"
      (Except.ok (pdScrapePrograms (Except.error "connection timed out")))
      [] [] 0 0 0).logs =
      [(engineRun "projectdiscovery"
        (Except.ok (pdScrapePrograms (Except.error "connection timed out")))
        [] [] 0 0 0).log] :=
  ⟨rfl, rfl, rfl, rfl⟩

/-- Claim C4 as amended: a transport failure of the whole ProjectDiscovery
fetch is caught inside the adapter, which returns an empty list instead of
raising a `SourceFetchError`; the resulting run therefore reports
`found = 0, new = 0, updated = 0` with `success = true`, leaves the catalog
unchanged, and appends one successful run-log entry. -/
theorem claim_C4_transport_error_swallowed
    (e platform : String) (st : Store) (logs : List ScrapeLog)
    (t1 t2 t3 : Nat) :
    pdScrapePrograms (Except.error e) = [] ∧
    (engineRun platform (Except.ok (pdScrapePrograms (Except.error e))) st
      logs t1 t2 t3).store = st ∧
    (engineRun platform (Except.ok (pdScrapePrograms (Except.error e))) st
      logs t1 t2 t3).log.programs_found = 0 ∧
    (engineRun platform (Except.ok (pdScrapePrograms (Except.error e))) st
      logs t1 t2 t3).log.programs_new = 0 ∧
    (engineRun platform (Except.ok (pdScrapePrograms (Except.error e))) st
      logs t1 t2 t3).log.programs_updated = 0 ∧
    (engineRun platform (Except.ok (pdScrapePrograms (Except.error e))) st
      logs t1 t2 t3).log.success = true ∧
    (engineRun platform (Except.ok (pdScrapePrograms (Except.error e))) st
      logs t1 t2 t3).logs =
      logs ++ [(engineRun platform
        (Except.ok (pdScrapePrograms (Except.error e))) st logs t1 t2
        t3).log] :=
  ⟨rfl, rfl, rfl, rfl, rfl, rfl, rfl⟩

/-! ## Claim C8: VDP-only classification -/

/-- A HackerOne node that exposes no paid/VDP signal at all. -/
def h1NoSignal : H1Node :=
  { handle := some "acme", name := some "Acme" }

/-- Counterexample to claim C8 as stated: a HackerOne node without any
`offers_bounties` signal is still classified `vdp_only = true` — the parser
infers non-paid status from the absence of data. -/
theorem claim_C8_counterexample :
    (h1ParseProgram h1NoSignal).vdp_only = true ∧
    h1NoSignal.offers_bounties = none :=
  ⟨rfl, rfl⟩

/-- Claim C8 as amended: ProjectDiscovery classifies `vdp_only = true`
exactly on an explicit textual no-bounty signal (`no`/`swag` in the bounty
field, not overridden by `yes`/`$`), while HackerOne sets `vdp_only = true`
exactly when `offers_bounties` is not explicitly `true` — so a missing
signal defaults to VDP-only there. -/
theorem claim_C8_vdp_classification :
    (∀ item : PDItem, ((pdParseProgram item).vdp_only = true ↔
      (¬(strContains (strLower (item.bounty.getD "")) "yes" = true ∨
         strContains (strLower (item.bounty.getD "")) "$" = true) ∧
       (strContains (strLower (item.bounty.getD "")) "no" = true ∨
        strContains (strLower (item.bounty.getD "")) "swag" = true)))) ∧
    (∀ node : H1Node, ((h1ParseProgram node).vdp_only = true ↔
      node.offers_bounties ≠ some true)) := by
  constructor
  · intro item
    simp only [pdParseProgram]
    cases hy : strContains (strLower (item.bounty.getD "")) "yes" <;>
    cases hd : strContains (strLower (item.bounty.getD "")) "$" <;>
    cases hn : strContains (strLower (item.bounty.getD "")) "no" <;>
    cases hs : strContains (strLower (item.bounty.getD "")) "swag" <;>
      simp [hy, hd, hn, hs]
  · intro node
    cases hob : node.offers_bounties with
    | none => simp [h1ParseProgram, hob]
    | some b => cases b <;> simp [h1ParseProgram, hob]

/-! ## Claim C9: per-source serialization of triggers -/

/-- Counterexample to claim C9 as stated: two triggers for the registered
source `hackerone` issued against the same scheduler state both execute —
the count of executing runs is 2, not exactly 1 with the other skipped. -/
theorem claim_C9_counterexample :
    (triggerExecutions ⟨["hackerone"], true⟩
      ["hackerone", "hackerone"]).count true = 2 := by
  decide

/-- Claim C9 as amended: `run_scraper` skips a trigger only when its
platform is not registered; the scheduler keeps no per-source in-flight
flag, so every trigger for a registered source executes — in particular all
of several concurrent triggers for the same source, none skipped or
queued. -/
theorem claim_C9_no_inflight_guard (s : SchedulerState) (ts : List String)
    (h : ∀ t ∈ ts, s.scrapers.contains t = true) :
    (triggerExecutions s ts).count true = ts.length := by
  induction ts with
  | nil => rfl
  | cons a rest ih =>
    have ha := h a (List.mem_cons_self a rest)
    have ham : a ∈ s.scrapers := by simpa using ha
    have hr := ih (fun t ht => h t (List.mem_cons_of_mem a ht))
    simp only [triggerExecutions, List.map_cons, List.count_cons,
      runScraperExecutes] at hr ⊢
    simp [ha, ham, hr]

/-- Witness for amended C9: with only `hackerone` registered, two triggers
for it both execute. -/
theorem claim_C9_no_inflight_guard_witness :
    (∀ t ∈ (["hackerone", "hackerone"] : List String),
      (["hackerone"] : List String).contains t = true) ∧
    (triggerExecutions ⟨["hackerone"], false⟩
      ["hackerone", "hackerone"]).count true = 2 :=
  ⟨by decide,
   claim_C9_no_inflight_guard ⟨["hackerone"], false⟩
     ["hackerone", "hackerone"] (by decide)⟩

/-! ## Claim C10: empty-URL ProjectDiscovery entries -/

/-- ASCII letter or digit, by code point. -/
def isAsciiAlnum (c : Char) : Bool :=
  (65 ≤ c.toNat && c.toNat ≤ 90) || (97 ≤ c.toNat && c.toNat ≤ 122) ||
  (48 ≤ c.toNat && c.toNat ≤ 57)

theorem upsert_existing_frame {st : Store} {p : Program} {r : StoredRec}
    (h : dbLookup st p.id = some r) (now : Nat) :
    (upsert st now p).2.1 = false ∧
    (upsert st now p).1.length = st.length := by
  simp [upsert, h, dbReplace_length]

theorem isSlugChar_of_not_alnum {c : Char} (h : isAsciiAlnum c = false) :
    isSlugChar c = false := by
  simp only [isAsciiAlnum, Bool.or_eq_false_iff] at h
  simp only [isSlugChar, Bool.or_eq_false_iff]
  exact ⟨h.1.2, h.2⟩

theorem toLower_eq_self_of_not_alnum {c : Char} (h : isAsciiAlnum c = false) :
    Char.toLower c = c := by
  have h1 : ¬(65 ≤ c.toNat ∧ c.toNat ≤ 90) := by
    intro hc
    simp only [isAsciiAlnum, Bool.or_eq_false_iff] at h
    have := h.1
    simp [hc.1, hc.2] at this
  unfold Char.toLower
  exact if_neg (fun hc => h1 ⟨hc.1, hc.2⟩)

theorem subNonAlnum_eq_nil {l : List Char}
    (h : ∀ c ∈ l, isSlugChar c = false) :
    subNonAlnum l true = [] ∧
    (subNonAlnum l false = [] ∨ subNonAlnum l false = ['-']) := by
  induction l with
  | nil => exact ⟨rfl, Or.inl rfl⟩
  | cons c cs ih =>
    have hc := h c (List.mem_cons_self c cs)
    have ihh := ih (fun d hd => h d (List.mem_cons_of_mem c hd))
    refine ⟨?_, Or.inr ?_⟩
    · simp [subNonAlnum, hc, ihh.1]
    · simp [subNonAlnum, hc, ihh.1]

/-- A character whose Python lowercase contains an ASCII letter or digit:
the ASCII alphanumerics themselves plus U+0130 and U+212A (see
`pyLowerChar`). -/
def lowersToSlug (c : Char) : Bool :=
  isAsciiAlnum c || c.toNat == 0x130 || c.toNat == 0x212A

theorem pyLowerChar_nonslug {c : Char} (h : lowersToSlug c = false) :
    ∀ d ∈ pyLowerChar c, isSlugChar d = false := by
  simp only [lowersToSlug, Bool.or_eq_false_iff] at h
  obtain ⟨⟨ha, h130⟩, h212⟩ := h
  intro d hd
  simp only [pyLowerChar, h130, h212, Bool.false_eq_true, if_false,
    List.mem_singleton] at hd
  subst hd
  rw [toLower_eq_self_of_not_alnum ha]
  exact isSlugChar_of_not_alnum ha

theorem slugify_empty {s : String}
    (h : s.toList.all (fun c => !lowersToSlug c) = true) :
    slugify s = "" := by
  have h' : ∀ c ∈ pyLower s, isSlugChar c = false := by
    intro c hc
    simp only [pyLower, List.mem_flatten] at hc
    obtain ⟨l, hl, hcl⟩ := hc
    obtain ⟨d, hd, rfl⟩ := List.mem_map.mp hl
    have hdl : lowersToSlug d = false := by
      have := List.all_eq_true.mp h d hd
      simpa using this
    exact pyLowerChar_nonslug hdl c hcl
  unfold slugify
  rcases (subNonAlnum_eq_nil h').2 with h0 | h1
  · rw [h0]; rfl
  · rw [h1]; rfl

/-- A ProjectDiscovery item whose name is the Kelvin sign U+212A: it holds
no ASCII letters or digits, yet Python's `str.lower()` turns it into `k`. -/
def pdItemKelvin : PDItem :=
  { name := some "\u212A" }

/-- Counterexample to claim C10 as stated: the Kelvin-sign name contains no
ASCII letters or digits and the URL is empty, yet the slug is `"k"`, not
the empty string, so the entry's identity is not the one derived from
`("unknown", "")` and it does not collapse with the empty-slug entries. -/
theorem claim_C10_counterexample :
    (pdItemKelvin.name.getD "").toList.all (fun c => !isAsciiAlnum c)
      = true ∧
    pdItemKelvin.url.getD "" = "" ∧
    (pdParseProgram pdItemKelvin).platform = "unknown" ∧
    (pdParseProgram pdItemKelvin).slug = "k" ∧
    ¬((pdParseProgram pdItemKelvin).id = programId "unknown" "") := by
  decide

/-- Claim C10 as amended: a ProjectDiscovery entry with an empty URL gets
platform `unknown` and a slug derived solely from the name by Python
lower-casing and collapsing non-`[a-z0-9]` runs to hyphens (then stripping
them); a name none of whose characters lower-case into an ASCII letter or
digit — no ASCII alphanumerics and neither U+0130 nor U+212A, the two code
points Python lowers into ASCII letters — slugifies to the empty string, so
all such entries share the identity of `("unknown", "")` and collapse into
a single catalog record when upserted. -/
theorem claim_C10_empty_url_identity_collapse
    (item1 item2 : PDItem)
    (h1u : item1.url.getD "" = "") (h2u : item2.url.getD "" = "")
    (h1n : (item1.name.getD "").toList.all (fun c => !lowersToSlug c) = true)
    (h2n : (item2.name.getD "").toList.all (fun c => !lowersToSlug c) = true) :
    (pdParseProgram item1).platform = "unknown" ∧
    (pdParseProgram item1).slug = slugify (item1.name.getD "") ∧
    (pdParseProgram item1).slug = "" ∧
    (pdParseProgram item1).id = programId "unknown" "" ∧
    (pdParseProgram item2).id = (pdParseProgram item1).id ∧
    ∀ st now1 now2, dbLookup st (pdParseProgram item1).id = none →
      (upsert (upsert st now1 (pdParseProgram item1)).1 now2
        (pdParseProgram item2)).2.1 = false ∧
      (upsert (upsert st now1 (pdParseProgram item1)).1 now2
        (pdParseProgram item2)).1.length = st.length + 1 := by
  have e1p : (pdParseProgram item1).platform
      = pdDetectPlatform (item1.url.getD "") := rfl
  have e1s : (pdParseProgram item1).slug
      = pdGenerateSlug (item1.url.getD "") (item1.name.getD "") := rfl
  have e1i : (pdParseProgram item1).id =
      programId (pdParseProgram item1).platform
        (pdParseProgram item1).slug := rfl
  have e2p : (pdParseProgram item2).platform
      = pdDetectPlatform (item2.url.getD "") := rfl
  have e2s : (pdParseProgram item2).slug
      = pdGenerateSlug (item2.url.getD "") (item2.name.getD "") := rfl
  have e2i : (pdParseProgram item2).id =
      programId (pdParseProgram item2).platform
        (pdParseProgram item2).slug := rfl
  have hp1 : (pdParseProgram item1).platform = "unknown" := by
    rw [e1p, h1u]; rfl
  have hs1 : (pdParseProgram item1).slug = slugify (item1.name.getD "") := by
    rw [e1s, h1u]
    simp [pdGenerateSlug]
  have hs1e : (pdParseProgram item1).slug = "" :=
    hs1.trans (slugify_empty h1n)
  have hid1 : (pdParseProgram item1).id = programId "unknown" "" := by
    rw [e1i, hp1, hs1e]
  have hp2 : (pdParseProgram item2).platform = "unknown" := by
    rw [e2p, h2u]; rfl
  have hs2e : (pdParseProgram item2).slug = "" := by
    rw [e2s, h2u]
    simp [pdGenerateSlug]
    exact slugify_empty h2n
  have hid2 : (pdParseProgram item2).id = programId "unknown" "" := by
    rw [e2i, hp2, hs2e]
  refine ⟨hp1, hs1, hs1e, hid1, hid2.trans hid1.symm, ?_⟩
  intro st now1 now2 hnone
  have hlen1 : (upsert st now1 (pdParseProgram item1)).1.length
      = st.length + 1 := by
    simp [upsert, hnone]
  obtain ⟨r, hr, _⟩ := upsert_lookup_self st now1 (pdParseProgram item1)
  have hr2 : dbLookup (upsert st now1 (pdParseProgram item1)).1
      (pdParseProgram item2).id = some r := by
    rw [hid2.trans hid1.symm]
    exact hr
  have hup2 := upsert_existing_frame hr2 now2
  exact ⟨hup2.1, by rw [hup2.2, hlen1]⟩

/-- A concrete empty-URL item whose name has no ASCII letters or digits. -/
def pdItemParens : PDItem :=
  { name := some "(((" }

/-- Another such item with a different name. -/
def pdItemBangs : PDItem :=
  { name := some "!!!" }

/-- Witness for C10 at concrete inputs: the two no-alphanumeric-name items
share the `("unknown", "")` identity and collapse to one stored row. -/
theorem claim_C10_empty_url_identity_collapse_witness :
    (pdItemParens.url.getD "" = "" ∧ pdItemBangs.url.getD "" = "") ∧
    (pdParseProgram pdItemParens).platform = "unknown" ∧
    (pdParseProgram pdItemParens).slug = "" ∧
    (pdParseProgram pdItemBangs).id = (pdParseProgram pdItemParens).id ∧
    (upsert (upsert [] 3 (pdParseProgram pdItemParens)).1 4
      (pdParseProgram pdItemBangs)).2.1 = false ∧
    (upsert (upsert [] 3 (pdParseProgram pdItemParens)).1 4
      (pdParseProgram pdItemBangs)).1.length = 1 := by
  have H := claim_C10_empty_url_identity_collapse pdItemParens pdItemBangs
    (by decide) (by decide) (by decide) (by decide)
  have H6 := H.2.2.2.2.2 [] 3 4 (by decide)
  exact ⟨⟨by decide, by decide⟩, H.1, H.2.2.1, H.2.2.2.2.1, H6.1, H6.2⟩

end BountyPing
